import Mathlib

/-!
Shallow embedding of the Notookk/Akshu-V1 media-resolution adapter
(`AviaxMusic/platforms/Youtube.py`, `AviaxMusic/utils/extraction.py`,
`AviaxMusic/utils/thumbnails.py`) and proofs about it.

External effects (yt-dlp extraction, HTTP requests, the filesystem, the
clock and the random number generator) are modelled as explicit oracle
inputs; every Python function becomes a total Lean function of its inputs
and these oracles.  Python `None`-able values become `Option`, Python
truthiness of strings (`None` and `""` are falsy) is `pyTruthy`, and
seconds of wall-clock time are rationals.
-/

namespace Akshu

/-- Python truthiness of an optional string: `None` and `""` are falsy. -/
def pyTruthy : Option String → Bool
  | none => false
  | some s => s ≠ ""

/-- Python `a or b` for optional strings (`None`/`""` falsy), with a
string default: `a or b or d`. -/
def pyOr2 (a b : Option String) (d : String) : String :=
  if pyTruthy a then a.getD d else if pyTruthy b then b.getD d else d

/-- `self.base_url = "https://www.youtube.com/watch?v="`. -/
def base_url : String := "https://www.youtube.com/watch?v="

/-- `self.invidious_instances`: the static mirror list from `__init__`. -/
def invidious_instances : List String :=
  [ "https://yewtu.be"
  , "https://inv.odyssey346.dev"
  , "https://invidious.flokinet.to"
  , "https://vid.puffyan.us"
  , "https://inv.tux.pizza" ]

/-- `_get_next_instance`: returns `invidious_instances[current_instance_index]`
and advances the index by one modulo the list length.  The state is the
`current_instance_index` field. -/
def getNextInstance (i : Nat) : String × Nat :=
  (invidious_instances.getD i "", (i + 1) % invidious_instances.length)

/-- The five successive instances produced by five successive calls to
`_get_next_instance` starting from index `i`. -/
def rotationFrom (i : Nat) : List String :=
  let (a, i1) := getNextInstance i
  let (b, i2) := getNextInstance i1
  let (c, i3) := getNextInstance i2
  let (d, i4) := getNextInstance i3
  let (e, _) := getNextInstance i4
  [a, b, c, d, e]

/-! ### Rate limiter (`_rate_limit`) -/

/-- The mutable timing state of `YouTubeAPI`: `last_request` and
`request_delay` (seconds, modelled as rationals; `__init__` sets them to
`0` and `2.0`). -/
structure RLState where
  last : ℚ
  delay : ℚ
deriving Repr, DecidableEq

/-- `_rate_limit`.  `now` is the first `time.time()` reading, `jitter` the
`random.uniform(0, 0.5)` draw, `now2` the second `time.time()` reading
(taken after the sleep), `newDelay` the `random.uniform(1.5, 3.0)` draw.
Returns the updated state together with the duration passed to
`asyncio.sleep` (`0` when no sleep happens). -/
def rateLimit (st : RLState) (now jitter now2 newDelay : ℚ) : RLState × ℚ :=
  let elapsed := now - st.last
  let sleep := if elapsed < st.delay then st.delay - elapsed + jitter else 0
  ({ last := now2, delay := newDelay }, sleep)

/-! ### Invidious fallback (`_get_from_invidious`, `_select_best_thumbnail`) -/

/-- One entry of the `videoThumbnails` JSON array of a video, with the two keys
`_select_best_thumbnail` reads (absent keys are `none`, as under `.get`). -/
structure Thumb where
  quality : Option String
  url : Option String
deriving Repr, DecidableEq

/-- `_select_best_thumbnail`: first thumbnail whose `quality` is `high`,
then `medium`, then `default`; otherwise the `url` of the first thumbnail;
`""` when the list is empty or the chosen entry has no `url`. -/
def selectBestThumbnail (thumbnails : List Thumb) : String :=
  if thumbnails = [] then ""
  else
    match (["high", "medium", "default"].filterMap fun q =>
        thumbnails.find? fun t => t.quality = some q).head? with
    | some t => t.url.getD ""
    | none =>
      match thumbnails.head? with
      | some t => t.url.getD ""
      | none => ""

/-- One entry of the Invidious search-result JSON array, with the keys
`_get_from_invidious` reads.  A result of `type` `"video"` always carries
a `videoId` in the Invidious API, so that field is a plain string. -/
structure InvVideo where
  type : Option String
  videoId : String
  title : Option String
  lengthSeconds : Option Nat
  videoThumbnails : List Thumb
deriving Repr, DecidableEq

/-- The metadata record built by `details` / `_get_from_invidious`. -/
structure Track where
  id : String
  title : String
  duration : Nat
  thumbnail : String
  url : String
deriving Repr, DecidableEq

/-- The record `_get_from_invidious` builds from the first search result
whose `type` equals `"video"`. -/
def trackOfInvVideo (v : InvVideo) : Track :=
  { id := v.videoId
  , title := v.title.getD "Unknown Title"
  , duration := v.lengthSeconds.getD 0
  , thumbnail := selectBestThumbnail v.videoThumbnails
  , url := base_url ++ v.videoId }

/-- Outcome of one Invidious HTTP attempt, as the code distinguishes them:
a 200 response whose JSON body is a list (`jsonList`) or anything falsy or
non-list (`jsonOther`), a 429, any other status, a caught
`aiohttp.ClientError`/`asyncio.TimeoutError`, or any other exception
(including a JSON decode failure). -/
inductive InvResp where
  | http200 (body : List InvVideo)
  | http200other
  | http429
  | httpOther
  | netError
  | otherExc
deriving Repr, DecidableEq

/-- Processing of the response of one attempt inside the `try`: the track found
(if any) and the `asyncio.sleep` durations issued inside the attempt (the
1-second cooldown on a 429). -/
def procResp : InvResp → Option Track × List ℚ
  | .http200 body =>
      -- `if results and isinstance(results, list): for video in results: ...`
      ((body.find? fun v => v.type = some "video").map trackOfInvVideo, [])
  | .http200other => (none, [])
  | .http429 => (none, [1])
  | .httpOther => (none, [])
  | .netError => (none, [])
  | .otherExc => (none, [])

/-- `max_attempts = min(3, len(self.invidious_instances))`. -/
def maxAttempts : Nat := min 3 invidious_instances.length

/-- Observable outcome of `_get_from_invidious`: the returned value, the
final `current_instance_index`, every `asyncio.sleep` duration in order,
and the instances attempted in order. -/
structure InvOut where
  result : Option Track
  idx : Nat
  sleeps : List ℚ
  bases : List String
deriving Repr, DecidableEq

/-- The `for attempt in range(max_attempts)` loop of `_get_from_invidious`.
`resps` gives the HTTP outcome of each attempt, `remaining` the attempts left,
`attempt` the current loop counter, `i` the rotation index.  Between
attempts the code sleeps `0.5 * (attempt + 1)` seconds. -/
def invGo (resps : Nat → InvResp) : Nat → Nat → Nat → InvOut
  | 0, _, i => { result := none, idx := i, sleeps := [], bases := [] }
  | remaining + 1, attempt, i =>
    let (base, i') := getNextInstance i
    let (res, attemptSleeps) := procResp (resps attempt)
    match res with
    | some t => { result := some t, idx := i', sleeps := attemptSleeps, bases := [base] }
    | none =>
      let backoff : List ℚ :=
        if attempt < maxAttempts - 1 then [1/2 * ((attempt : ℚ) + 1)] else []
      let rest := invGo resps remaining (attempt + 1) i'
      { result := rest.result
      , idx := rest.idx
      , sleeps := attemptSleeps ++ backoff ++ rest.sleeps
      , bases := base :: rest.bases }

/-- `_get_from_invidious`, given the per-attempt HTTP outcomes and the
current `current_instance_index`. -/
def getFromInvidious (resps : Nat → InvResp) (i : Nat) : InvOut :=
  invGo resps maxAttempts 0 i

/-! ### The YouTube URL regular expression

`self.url_regex = (https?://)?(www\.)?(youtube\.com|youtu\.be)/(watch\?v=|embed/|v/|.+\?v=)?([^&=%\?]{11})`

A string fully matches this pattern iff it decomposes as
`p1 ++ p2 ++ p3 ++ "/" ++ p4 ++ p5` with `p1` in `{"", "http://", "https://"}`,
`p2` in `{"", "www."}`, `p3` in `{"youtube.com", "youtu.be"}`, `p4` empty or
one of the fixed alternatives or at least one non-newline character followed
by `"?v="`, and `p5` eleven characters none of which is `&`, `=`, `%` or `?`.
The matcher below decides exactly that decomposition. -/

/-- A character accepted by the final group `[^&=%\?]`. -/
def ytClassChar (c : Char) : Bool :=
  c ≠ '&' && c ≠ '=' && c ≠ '%' && c ≠ '?'

/-- Group 5 `[^&=%\?]{11}`: exactly eleven characters of the class. -/
def group5ok (b : List Char) : Bool :=
  b.length = 11 && b.all ytClassChar

/-- The alternative `.+\?v=` of group 4: one or more non-newline characters
followed by the literal `?v=`. -/
def dotPlusVeq (a : List Char) : Bool :=
  4 ≤ a.length && decide (a.drop (a.length - 3) = "?v=".toList)
    && (a.take (a.length - 3)).all (· ≠ '\n')

/-- The optional group 4 `(watch\?v=|embed/|v/|.+\?v=)?`. -/
def group4ok (a : List Char) : Bool :=
  a.isEmpty || decide (a = "watch?v=".toList) || decide (a = "embed/".toList)
    || decide (a = "v/".toList) || dotPlusVeq a

/-- After the host and the `/`, a fullmatch needs a split into group 4 and
group 5 consuming the whole remainder. -/
def tailFullOk (r : List Char) : Bool :=
  (List.range (r.length + 1)).any fun k => group4ok (r.take k) && group5ok (r.drop k)

/-- The twelve possible values of `p1 ++ p2 ++ p3 ++ "/"`. -/
def ytPrefixes : List String :=
  ((["", "http://", "https://"].map fun p1 =>
    (["", "www."].map fun p2 =>
      ["youtube.com", "youtu.be"].map fun p3 => p1 ++ p2 ++ p3 ++ "/")).flatten).flatten

/-- `self.url_regex.fullmatch(s)` as a boolean. -/
def urlRegexFullmatch (s : String) : Bool :=
  ytPrefixes.any fun p =>
    p.toList.isPrefixOf s.toList && tailFullOk (s.toList.drop p.length)

/-- Group 5 of a prefix match starting at a given remainder: the first split
where group 4 matches and the next eleven characters form group 5 (trailing
characters are allowed under `re.match`). -/
def matchTail (r : List Char) : Option (List Char) :=
  ((List.range (r.length + 1)).filterMap fun k =>
    if group4ok (r.take k) && group5ok ((r.drop k).take 11) then
      some ((r.drop k).take 11)
    else none).head?

/-- `self.url_regex.match(s)`, returning `group(5)` (the eleven-character
video id) when the pattern matches a prefix of `s`.  Which of several
possible decompositions backtracking would choose is irrelevant to every
claim; this matcher returns the first one in enumeration order. -/
def urlRegexMatch (s : String) : Option String :=
  (ytPrefixes.filterMap fun p =>
    if p.toList.isPrefixOf s.toList then
      (matchTail (s.toList.drop p.length)).map String.mk
    else none).head?

/-! ### `details` and the yt-dlp primary backend -/

/-- The fields of a yt-dlp info dict that `details` reads after resolving
`entries` (absent keys are `none`; for `id` and `thumbnail` the code also
treats `""` as absent via truthiness). -/
structure YtEntry where
  id : Option String
  title : Option String
  duration : Option Nat
  thumbnail : Option String
deriving Repr, DecidableEq

/-- The `entries` key of an info dict: a list of entry dicts, or a value
that is not a list. -/
inductive Entries where
  | ofList (l : List YtEntry)
  | notList
deriving Repr, DecidableEq

/-- A top-level yt-dlp info dict: an optional `entries` key plus its own
entry fields (used when `entries` is absent). -/
structure YtInfo where
  entries : Option Entries
  entry : YtEntry
deriving Repr, DecidableEq

/-- Outcome of the primary extraction in `details`: an exception around the
extraction (the outer `try`), a successful `extract_info`, a falsy `info`,
a `yt_dlp.utils.ExtractorError` with message `msg`, or any other
exception. -/
inductive YtdlpOutcome where
  | preError (msg : String)
  | ok (info : YtInfo)
  | noInfo
  | extractorError (msg : String)
  | otherError (msg : String)
deriving Repr, DecidableEq

/-- The needle of the captcha-block test in `details` (the apostrophe is
written via its code point): `Sign in to confirm you☒re not a bot` with
`☒` the apostrophe. -/
def botBlockNeedle : String :=
  "Sign in to confirm you" ++ String.mk [Char.ofNat 39] ++ "re not a bot"

/-- `needle` occurs as a contiguous sublist of the second list. -/
def subListOf : List Char → List Char → Bool
  | needle, [] => needle.isEmpty
  | needle, c :: t => needle.isPrefixOf (c :: t) || subListOf needle t

/-- Python `needle in hay`: substring containment on the character
sequences. -/
def containsSubstr (hay needle : String) : Bool :=
  subListOf needle.data hay.data

/-- The external inputs of one `details` call: the primary extraction
outcome and the per-attempt Invidious outcomes. -/
structure DetOracle where
  ytdlp : YtdlpOutcome
  inv : Nat → InvResp

/-- Observable outcome of `details`: the returned pair, whether
`_get_from_invidious` was called, and the final
`current_instance_index`. -/
structure DetOut where
  result : Option Track
  err : String
  invCalled : Bool
  idx : Nat
deriving Repr, DecidableEq

/-- The tail of `details` once `info` has been resolved to a single entry
dict `e`: build the metadata record when `info.get('id')` is truthy,
otherwise fall back to Invidious. -/
def detailsFinish (o : DetOracle) (i : Nat) (e : YtEntry) : DetOut :=
  if pyTruthy e.id then
    let vid := e.id.getD ""
    { result := some
        { id := vid
        , title := e.title.getD "Unknown Title"
        , duration := e.duration.getD 0
        , thumbnail := pyOr2 e.thumbnail none
            ("https://i.ytimg.com/vi/" ++ vid ++ "/maxresdefault.jpg")
        , url := base_url ++ vid }
    , err := "", invCalled := false, idx := i }
  else
    let inv := getFromInvidious o.inv i
    match inv.result with
    | some t => { result := some t, err := "", invCalled := true, idx := inv.idx }
    | none =>
      { result := none, err := "No video ID found and fallback failed"
      , invCalled := true, idx := inv.idx }

/-- `details`.  `i` is the entering `current_instance_index`.  The query
rewrite feeds only the external backends (both abstracted by the oracle),
so `q2` is computed for fidelity but consumed by no further model code;
the `_rate_limit` call mutates only the timing state modelled by
`rateLimit`. -/
def detailsFull (o : DetOracle) (i : Nat) (query : String) : DetOut :=
  let _q2 := match urlRegexMatch query with
    | some vid => base_url ++ vid
    | none => if query.startsWith "ytsearch:" then query else "ytsearch:" ++ query
  match o.ytdlp with
  | .preError msg =>
    { result := none, err := "Failed to process query: " ++ msg
    , invCalled := false, idx := i }
  | .noInfo =>
    { result := none, err := "No results found.", invCalled := false, idx := i }
  | .ok info =>
    match info.entries with
    | none => detailsFinish o i info.entry
    | some (.ofList []) =>
      { result := none, err := "No videos found in search results."
      , invCalled := false, idx := i }
    | some (.ofList (e :: _)) => detailsFinish o i e
    | some .notList =>
      { result := none, err := "Invalid search results format."
      , invCalled := false, idx := i }
  | .extractorError msg =>
    if containsSubstr msg botBlockNeedle then
      let inv := getFromInvidious o.inv i
      match inv.result with
      | some t => { result := some t, err := "", invCalled := true, idx := inv.idx }
      | none =>
        { result := none, err := "Blocked by YouTube and fallback failed"
        , invCalled := true, idx := inv.idx }
    else
      { result := none, err := "Extraction failed: " ++ msg
      , invCalled := false, idx := i }
  | .otherError msg =>
    { result := none, err := "Error: " ++ msg, invCalled := false, idx := i }

/-- The pair `details` returns to its caller. -/
def details (o : DetOracle) (i : Nat) (query : String) : Option Track × String :=
  ((detailsFull o i query).result, (detailsFull o i query).err)

/-- `exists`: `details(query)[0] is not None` (the inner `try` cannot fire
in the model because `details` is total). -/
def existsQuery (o : DetOracle) (i : Nat) (query : String) : Bool :=
  (details o i query).1.isSome

/-! ### `video` (stream URL) -/

/-- One entry of the `formats` list, with the single key `video` reads. -/
structure Fmt where
  url : Option String
deriving Repr, DecidableEq

/-- The fields of the info dict that `video` reads. -/
structure VidInfo where
  url : Option String
  formats : List Fmt
deriving Repr, DecidableEq

/-- Outcome of the extraction inside `video`. -/
inductive VideoOutcome where
  | ok (info : VidInfo)
  | noInfo
  | dlError (msg : String)
  | otherError (msg : String)
deriving Repr, DecidableEq

/-- `video`: return `info['url']` when truthy, otherwise the first truthy
format URL, otherwise an error; exceptions become error pairs. -/
def video (o : VideoOutcome) : Option String × String :=
  match o with
  | .noInfo => (none, "No video information available")
  | .ok info =>
    if pyTruthy info.url then (info.url, "")
    else
      match (info.formats.filterMap fun f =>
          if pyTruthy f.url then f.url else none).head? with
      | some u => (some u, "")
      | none => (none, "No stream URL available")
  | .dlError msg => (none, "Download failed: " ++ msg)
  | .otherError msg => (none, "Error getting stream URL: " ++ msg)

/-! ### `download` and `_get_ydl_opts` -/

/-- One yt-dlp post-processor dict. -/
structure PP where
  key : String
  preferredcodec : String
  preferredquality : String
deriving Repr, DecidableEq

/-- The mode-dependent fields of `_get_ydl_opts`; the remaining options
(`quiet`, `geo_bypass`, timeouts, ...) are constants independent of
`audio_only` and of every claim. -/
structure YdlOpts where
  format : String
  postprocessors : List PP
deriving Repr, DecidableEq

/-- `_get_ydl_opts`. -/
def getYdlOpts (audioOnly : Bool) : YdlOpts :=
  { format :=
      if audioOnly then "bestaudio/best"
      else "bestvideo[height<=720]+bestaudio/best[height<=720]"
  , postprocessors :=
      if audioOnly then
        [{ key := "FFmpegExtractAudio", preferredcodec := "mp3"
         , preferredquality := "192" }]
      else [] }

/-- Index of the last occurrence of `c` in `l`. -/
def lastIdx (l : List Char) (c : Char) : Option Nat :=
  (l.reverse.findIdx? (· = c)).map fun k => l.length - 1 - k

/-- `os.path.splitext(p)[0]`: drop the extension starting at the last dot,
provided that dot lies after the last path separator and the basename does
not consist solely of dots up to it. -/
def splitextBase (p : String) : String :=
  let l := p.toList
  let sep : Int := ((lastIdx l '/').map Int.ofNat).getD (-1)
  let dot : Int := ((lastIdx l '.').map Int.ofNat).getD (-1)
  if sep < dot then
    let start := (sep + 1).toNat
    let dotN := dot.toNat
    if ((l.drop start).take (dotN - start)).any (· ≠ '.') then
      String.mk (l.take dotN)
    else p
  else p

/-- Python `s.endswith(suf)` (on the character sequences of the
strings). -/
def pyEndsWith (s suf : String) : Bool :=
  suf.data.isSuffixOf s.data

/-- Outcome of the extraction-with-download inside `download`:
`ok path` is a successful run with `ydl.prepare_filename(info) = path`. -/
inductive DlOutcome where
  | ok (preparedPath : String)
  | dlError (msg : String)
  | preError (msg : String)
deriving Repr, DecidableEq

/-- `download`.  `pathExists` is the `os.path.exists(path)` test before the
rename; `renameOk` is false when `os.rename` raises `OSError`, in which
case the assignment `path = new_path` is skipped and the original path is
returned. -/
def download (o : DlOutcome) (pathExists renameOk audioOnly : Bool) :
    Option String × String :=
  match o with
  | .preError msg => (none, "Error during download: " ++ msg)
  | .dlError msg => (none, "Download failed: " ++ msg)
  | .ok path =>
    if audioOnly && !pyEndsWith path ".mp3" then
      let newPath := splitextBase path ++ ".mp3"
      if pathExists && !renameOk then (some path, "")
      else (some newPath, "")
    else (some path, "")

/-! ### `url` (extraction from a chat message) -/

/-- The entity kinds `url` distinguishes: `MessageEntityType.URL`,
`MessageEntityType.TEXT_LINK` (carrying its `url` attribute), anything
else. -/
inductive EType where
  | url
  | textLink (u : String)
  | other
deriving Repr, DecidableEq

/-- A message entity as `url` reads it. -/
structure MsgEntity where
  type : EType
  offset : Nat
  length : Nat
deriving Repr, DecidableEq

/-- The fields of a (possibly replied-to) message that `url` reads. -/
structure SubMessage where
  text : Option String
  caption : Option String
  entities : List MsgEntity
  captionEntities : List MsgEntity

/-- The incoming message: its own fields plus `reply_to_message`. -/
structure PyMessage extends SubMessage where
  replyToMessage : Option SubMessage

/-- `text[entity.offset : entity.offset + entity.length]` (Python slicing
clamps out-of-range indices). -/
def sliceText (text : String) (off len : Nat) : String :=
  String.mk ((text.toList.drop off).take len)

/-- The string an entity contributes: the slice of the message text for a
URL entity, the `url` attribute for a text link, nothing otherwise. -/
def entityCandidate (text : String) (e : MsgEntity) : Option String :=
  match e.type with
  | .url => some (sliceText text e.offset e.length)
  | .textLink u => some u
  | .other => none

/-- `text = msg.text or msg.caption or ""`. -/
def msgText (m : SubMessage) : String := pyOr2 m.text m.caption ""

/-- The candidate strings of one message, in entity order
(`entities` then `caption_entities`). -/
def msgCandidates (m : SubMessage) : List String :=
  (m.entities ++ m.captionEntities).filterMap (entityCandidate (msgText m))

/-- The inner loop of `url` over one message: the first candidate that
fully matches the URL pattern. -/
def urlOfMsg (m : SubMessage) : Option String :=
  (msgCandidates m).find? urlRegexFullmatch

/-- `url`: scan the message, then (when present) its replied-to message. -/
def urlMethod (m : PyMessage) : Option String :=
  match urlOfMsg m.toSubMessage with
  | some u => some u
  | none =>
    match m.replyToMessage with
    | some r => urlOfMsg r
    | none => none

/-! ### `utils/extraction.py` -/

/-- `is_valid_username`: `re.fullmatch(r"[a-zA-Z][a-zA-Z0-9_]{4,31}", s)`,
i.e. an ASCII letter followed by 4 to 31 characters drawn from ASCII
letters, digits and underscore. -/
def is_valid_username (username : String) : Bool :=
  match username.toList with
  | [] => false
  | c :: cs =>
    c.isAlpha && cs.all (fun d => d.isAlphanum || d = '_')
      && 4 ≤ cs.length && cs.length ≤ 31

/-- A Telegram user, reduced to its id. -/
structure TgUser where
  id : Int
deriving Repr, DecidableEq

/-- A replied-to message, reduced to its author (`from_user` may be absent,
e.g. for channel posts). -/
structure ReplyMsg where
  from_user : Option TgUser
deriving Repr, DecidableEq

/-- A message entity as `extract_user` reads it: a `TEXT_MENTION` carries
its `user` attribute, every other kind routes to `m.command[1]`. -/
inductive ExEntity where
  | textMention (user : TgUser)
  | otherEntity
deriving Repr, DecidableEq

/-- The fields of a message that `extract_user` reads.  `command = none`
models a message object without a `command` attribute (the
`hasattr(m, "command")` test). -/
structure ExMessage where
  reply_to_message : Option ReplyMsg
  text : String
  entities : List ExEntity
  command : Option (List String)

/-- What `extract_user` resolves to: the author of the replied-to message,
or an `app.get_users` call by numeric id or by username. -/
inductive ExtractResult where
  | replyAuthor (u : Option TgUser)
  | fetchById (i : Int)
  | fetchByName (s : String)
deriving Repr, DecidableEq

/-- Python `str.isdecimal` (restricted to ASCII digits; other Unicode
decimal digits never appear in the claims). -/
def pyIsDecimal (s : String) : Bool :=
  s ≠ "" && s.toList.all Char.isDigit

/-- Python `s.startswith(pre)` (on the character sequences of the
strings). -/
def pyStartsWith (s pre : String) : Bool :=
  pre.data.isPrefixOf s.data

/-- `msg_entities = m.entities[1] if m.text.startswith("/") and
len(m.entities) > 1 else m.entities[0]` (the defaults of `getD` are
unreachable: the caller has checked `m.entities` nonempty). -/
def chosenEntity (m : ExMessage) : ExEntity :=
  if pyStartsWith m.text "/" && m.entities.length > 1 then
    m.entities.getD 1 .otherEntity
  else m.entities.getD 0 .otherEntity

/-- `extract_user`; `Except.error` models `raise ValueError(...)`. -/
def extract_user (m : ExMessage) : Except String ExtractResult :=
  match m.reply_to_message with
  | some r => .ok (.replyAuthor r.from_user)
  | none =>
    if m.entities = [] ∨ m.command = none ∨ (m.command.getD []).length < 2 then
      .error "No user argument found."
    else
      match chosenEntity m with
      | .textMention u => .ok (.fetchById u.id)
      | .otherEntity =>
        let val := (m.command.getD []).getD 1 ""
        if pyIsDecimal val then .ok (.fetchById (val.toNat?.getD 0 : Int))
        else if is_valid_username val then .ok (.fetchByName val)
        else .error "Invalid user identifier: must be a user ID or a valid username."

/-! ### `utils/thumbnails.py` -/

/-- `sanitize_filename`: `re.sub(r'[\\/*?:"<>|]', "_", filename)` (a
character map over the string). -/
def sanitize_filename (s : String) : String :=
  String.mk (s.data.map fun c =>
    if c ∈ ['\\', '/', '*', '?', ':', '"', '<', '>', '|'] then '_' else c)

/-- `FAILED = "AviaxMusic/assets/bot.jpg"`. -/
def FAILED : String := "AviaxMusic/assets/bot.jpg"

/-- The external side effects `gen_thumb`/`gen_qthumb` can perform before
or while compositing; on a cache hit none of them happens. -/
inductive Effect where
  | fetchProfile
  | searchVideo
  | downloadThumb (url : String)
  | removeFile (path : String)
  | save (path : String)
deriving Repr, DecidableEq

/-- The values the `VideosSearch` block extracts on success: the cleaned
title, the duration string, and the thumbnail URL already split at `?`. -/
structure SearchData where
  title : String
  duration : String
  thumbUrl : String
deriving Repr, DecidableEq

/-- The external world of one `gen_thumb`/`gen_qthumb` call: the filesystem
(`os.path.isfile`), whether the profile photo download succeeds, the
`VideosSearch` outcome (`none` models an exception or an empty result
list), whether the thumbnail HTTP download succeeds, and whether the
avatar-creation and compositing blocks raise. -/
structure ThumbOracle where
  fs : String → Bool
  profileOk : Bool
  search : Option SearchData
  thumbDownloadOk : Bool
  avatarOk : Bool
  compositeOk : Bool

/-- `return FAILED if file_exists(FAILED) else None`. -/
def failedOr (o : ThumbOracle) : Option String :=
  if o.fs FAILED then some FAILED else none

/-- Common body of `gen_thumb` (`que = false`) and `gen_qthumb`
(`que = true`); the two sources differ only in the cache-path prefix and
in drawn text irrelevant to the model.  Returns the resulting path and the
effects performed, in order. -/
def genThumbCore (que : Bool) (o : ThumbOracle) (videoid userId : String) :
    Option String × List Effect :=
  let sv := sanitize_filename videoid
  let su := sanitize_filename userId
  let cachedPath := "cache/" ++ (if que then "que" else "") ++ sv ++ "_" ++ su ++ ".png"
  let thumbPath := "cache/thumb" ++ sv ++ ".png"
  if o.fs cachedPath then (some cachedPath, [])
  else
    -- `get_user_profile_pic`: the downloaded photo path or `FAILED`
    let userImagePath :=
      if o.profileOk then "cache/" ++ su ++ "_photo.jpg" else FAILED
    if !o.fs userImagePath then (none, [.fetchProfile])
    else
      let thumbUrl : Option String := o.search.map (·.thumbUrl)
      let dlEffects : List Effect :=
        match thumbUrl with
        | some u => [.downloadThumb u]
        | none => []
      let effs := [Effect.fetchProfile, Effect.searchVideo] ++ dlEffects
      -- `thumb_path` exists if the download succeeded or a previous run left it
      let thumbFileExists := (thumbUrl.isSome && o.thumbDownloadOk) || o.fs thumbPath
      if !o.avatarOk then (failedOr o, effs)
      else if !thumbFileExists then (failedOr o, effs)
      else if !o.fs "AviaxMusic/assets/circle.png" then (failedOr o, effs)
      else if !o.compositeOk then (failedOr o, effs)
      else if !(o.fs "AviaxMusic/assets/font2.ttf" && o.fs "AviaxMusic/assets/font.ttf") then
        (failedOr o, effs)
      else (some cachedPath, effs ++ [.removeFile thumbPath, .save cachedPath])

/-- `gen_thumb(videoid, user_id, app)`. -/
def gen_thumb (o : ThumbOracle) (videoid userId : String) :
    Option String × List Effect :=
  genThumbCore false o videoid userId

/-- `gen_qthumb(videoid, user_id, app)`. -/
def gen_qthumb (o : ThumbOracle) (videoid userId : String) :
    Option String × List Effect :=
  genThumbCore true o videoid userId

/-! ## Helper lemmas -/

/-- A string with a nonempty prefix is nonempty. -/
theorem append_ne_empty_left (a b : String) (h : a ≠ "") : a ++ b ≠ "" := by
  intro hc
  have h2 := congrArg String.length hc
  rw [String.length_append] at h2
  have h0 : ("" : String).length = 0 := rfl
  rw [h0] at h2
  have ha : a.data.length = 0 := by
    have : a.length = a.data.length := rfl
    omega
  have hd : a.data = [] := List.length_eq_zero.mp ha
  apply h
  cases a with
  | mk d => cases hd; rfl

/-! ## Claims -/

/-- **C2.** Mirror selection is round-robin over the fixed five-element
instance list: for every in-range starting index, `_get_next_instance`
returns the instance at that index, advances the index by one modulo the
list length (so the index always stays in `[0, 5)`), and five successive
calls return each instance exactly once (the produced quintuple is a
permutation of `invidious_instances`). -/
theorem round_robin_rotation (i : Nat) (h : i < invidious_instances.length) :
    (getNextInstance i).1 = invidious_instances.getD i ""
    ∧ (getNextInstance i).2 = (i + 1) % invidious_instances.length
    ∧ (getNextInstance i).2 < invidious_instances.length
    ∧ (rotationFrom i).Perm invidious_instances := by
  refine ⟨rfl, rfl, ?_, ?_⟩
  · exact Nat.mod_lt _ (by decide)
  · have h5 : i < 5 := h
    interval_cases i <;> decide

/-- Witness for **C2** at starting index `3`. -/
theorem round_robin_rotation_witness :
    (getNextInstance 3).1 = invidious_instances.getD 3 ""
    ∧ (getNextInstance 3).2 = (3 + 1) % invidious_instances.length
    ∧ (getNextInstance 3).2 < invidious_instances.length
    ∧ (rotationFrom 3).Perm invidious_instances :=
  round_robin_rotation 3 (by decide)

/-- **C3.** The rate limiter enforces a minimum, randomized delay between
consecutive outbound requests: when less than `request_delay` seconds have
elapsed since the previous request, `_rate_limit` sleeps for the remaining
time plus the jitter draw (a value of `[0, 0.5]`; uniformity of the
distribution is not expressible in this embedding, the drawn value is
universally quantified over the interval); afterwards `last_request` is
the fresh clock reading and `request_delay` is the fresh draw from
`[1.5, 3.0]`; consequently the new request is issued no sooner than
`request_delay` seconds after the previous one.  `hclock` states that the
second clock reading comes after the sleep finishes. -/
theorem rate_limit_spec (st : RLState) (now jitter now2 newDelay : ℚ)
    (hj0 : 0 ≤ jitter) (hj1 : jitter ≤ 1/2)
    (hd0 : 3/2 ≤ newDelay) (hd1 : newDelay ≤ 3)
    (hclock : now + (rateLimit st now jitter now2 newDelay).2 ≤ now2) :
    (rateLimit st now jitter now2 newDelay).2
      = (if now - st.last < st.delay then st.delay - (now - st.last) + jitter else 0)
    ∧ (rateLimit st now jitter now2 newDelay).1.last = now2
    ∧ (rateLimit st now jitter now2 newDelay).1.delay = newDelay
    ∧ 3/2 ≤ (rateLimit st now jitter now2 newDelay).1.delay
    ∧ (rateLimit st now jitter now2 newDelay).1.delay ≤ 3
    ∧ st.delay ≤ now2 - st.last := by
  refine ⟨rfl, rfl, rfl, hd0, hd1, ?_⟩
  simp only [rateLimit] at hclock
  by_cases hlt : now - st.last < st.delay
  · rw [if_pos hlt] at hclock
    linarith
  · rw [if_neg hlt] at hclock
    push_neg at hlt
    linarith

/-- Witness for **C3**: previous request at `t = 0` with `request_delay = 2`,
call at `t = 1` with jitter `1/4`, sleep ends and the clock is re-read at
`t = 9/4`, new delay draw `5/2`. -/
theorem rate_limit_spec_witness :
    (rateLimit ⟨0, 2⟩ 1 (1/4) (9/4) (5/2)).2
      = (if (1 : ℚ) - (RLState.mk 0 2).last < (RLState.mk 0 2).delay
         then (RLState.mk 0 2).delay - (1 - (RLState.mk 0 2).last) + 1/4 else 0)
    ∧ (rateLimit ⟨0, 2⟩ 1 (1/4) (9/4) (5/2)).1.last = 9/4
    ∧ (rateLimit ⟨0, 2⟩ 1 (1/4) (9/4) (5/2)).1.delay = 5/2
    ∧ 3/2 ≤ (rateLimit ⟨0, 2⟩ 1 (1/4) (9/4) (5/2)).1.delay
    ∧ (rateLimit ⟨0, 2⟩ 1 (1/4) (9/4) (5/2)).1.delay ≤ 3
    ∧ (RLState.mk 0 2).delay ≤ 9/4 - (RLState.mk 0 2).last :=
  rate_limit_spec ⟨0, 2⟩ 1 (1/4) (9/4) (5/2) (by norm_num) (by norm_num)
    (by norm_num) (by norm_num) (by norm_num [rateLimit])

/-- **C4 (counterexample).** The claim asserts a *jittered* sleep between
consecutive mirror attempts.  The sleep in `_get_from_invidious` is
`0.5 * (attempt + 1)` — a function of the loop counter alone; the function
consumes no randomness (its embedding takes none), and on this concrete
run where every attempt fails with a network error the two inter-attempt
sleeps are exactly `0.5` and `1.0` seconds, with no jitter term. -/
theorem inv_retry_sleep_counterexample :
    (getFromInvidious (fun _ => .netError) 0).sleeps = [1/2, 1]
    ∧ (getFromInvidious (fun _ => .netError) 0).result = none := by
  constructor
  · show [1/2 * ((0 : ℚ) + 1), 1/2 * ((1 : ℚ) + 1)] = [1/2, 1]
    norm_num
  · rfl

/-- **C4 (amended).** `_get_from_invidious` makes at most
`min(3, len(invidious_instances))` attempts, each against the next
round-robin instance; between consecutive attempts it sleeps a
*deterministic*, linearly growing `0.5 * (attempt + 1)` seconds (plus a
fixed 1-second cooldown inside an attempt that hits HTTP 429); if no
attempt yields a video the result is `None`. -/
theorem inv_retry_spec (resps : Nat → InvResp) (i : Nat)
    (h : i < invidious_instances.length) :
    (getFromInvidious resps i).bases.length ≤ min 3 invidious_instances.length
    ∧ (∀ k, k < (getFromInvidious resps i).bases.length →
        (getFromInvidious resps i).bases.getD k "" =
          invidious_instances.getD ((i + k) % invidious_instances.length) "")
    ∧ ((∀ k, k < maxAttempts → procResp (resps k) = (none, [])) →
        (getFromInvidious resps i).result = none
        ∧ (getFromInvidious resps i).sleeps = [1/2, 1])
    ∧ ((getFromInvidious resps i).result = none →
        ∀ k, k < maxAttempts → (procResp (resps k)).1 = none) := by
  have hlen : invidious_instances.length = 5 := rfl
  have hmx : maxAttempts = 3 := rfl
  have h5 : i < 5 := by omega
  rcases h0 : procResp (resps 0) with ⟨r0, s0⟩
  rcases h1 : procResp (resps 1) with ⟨r1, s1⟩
  rcases h2 : procResp (resps 2) with ⟨r2, s2⟩
  simp only [getFromInvidious, hmx, invGo, getNextInstance, h0, h1, h2, hlen]
  rcases r0 with _ | t0
  · rcases r1 with _ | t1
    · rcases r2 with _ | t2
      · -- three failing attempts
        refine ⟨by simp [hlen], ?_, ?_, ?_⟩
        · intro k hk
          simp only [List.length_cons, List.length_nil] at hk
          interval_cases k
          · simp [Nat.mod_eq_of_lt h5]
          · simp
          · have he : ((i + 1) % 5 + 1) % 5 = (i + 2) % 5 := by omega
            simp [he]
        · intro hall
          have e0 := hall 0 (by omega)
          have e1 := hall 1 (by omega)
          have e2 := hall 2 (by omega)
          rw [h0] at e0; rw [h1] at e1; rw [h2] at e2
          have hs0 := (Prod.mk.inj e0).2
          have hs1 := (Prod.mk.inj e1).2
          have hs2 := (Prod.mk.inj e2).2
          subst hs0; subst hs1; subst hs2
          refine ⟨rfl, ?_⟩
          simp only []
          norm_num
        · intro _ k hk
          interval_cases k
          · rw [h0]
          · rw [h1]
          · rw [h2]
      · -- third attempt succeeds
        refine ⟨by simp [hlen], ?_, ?_, by simp⟩
        · intro k hk
          simp only [List.length_cons, List.length_nil] at hk
          interval_cases k
          · simp [Nat.mod_eq_of_lt h5]
          · simp
          · have he : ((i + 1) % 5 + 1) % 5 = (i + 2) % 5 := by omega
            simp [he]
        · intro hall
          have e2 := hall 2 (by omega)
          rw [h2] at e2
          exact absurd (Prod.mk.inj e2).1 (by simp)
    · -- second attempt succeeds
      refine ⟨by simp [hlen], ?_, ?_, by simp⟩
      · intro k hk
        simp only [List.length_cons, List.length_nil] at hk
        interval_cases k
        · simp [Nat.mod_eq_of_lt h5]
        · simp
      · intro hall
        have e1 := hall 1 (by omega)
        rw [h1] at e1
        exact absurd (Prod.mk.inj e1).1 (by simp)
  · -- first attempt succeeds
    refine ⟨by simp [hlen], ?_, ?_, by simp⟩
    · intro k hk
      simp only [List.length_cons, List.length_nil] at hk
      interval_cases k
      simp [Nat.mod_eq_of_lt h5]
    · intro hall
      have e0 := hall 0 (by omega)
      rw [h0] at e0
      exact absurd (Prod.mk.inj e0).1 (by simp)

/-- Witness for **C4 (amended)** with three failing attempts from index `0`. -/
theorem inv_retry_spec_witness :
    ((getFromInvidious (fun _ => .httpOther) 0).result = none
      ∧ (getFromInvidious (fun _ => .httpOther) 0).sleeps = [1/2, 1])
    ∧ (getFromInvidious (fun _ => .httpOther) 0).bases.getD 1 "" =
        invidious_instances.getD ((0 + 1) % invidious_instances.length) "" := by
  have h := inv_retry_spec (fun _ => .httpOther) 0 (by decide)
  exact ⟨h.2.2.1 (fun k _ => rfl), h.2.1 1 (by decide)⟩

/-- The single entry dict `details` works with after resolving the
`entries` key: the first listed entry, the info dict itself when `entries`
is absent, nothing when the search results are empty or malformed. -/
def resolvedEntry (info : YtInfo) : Option YtEntry :=
  match info.entries with
  | none => some info.entry
  | some (.ofList (e :: _)) => some e
  | some (.ofList []) => none
  | some .notList => none

/-- **C1 (counterexample).** Not every failing primary extraction path
falls back to the mirror: when `extract_info` returns a falsy `info`,
`details` returns `(None, "No results found.")` without calling
`_get_from_invidious`, even though on this concrete oracle the mirror
would have answered with a video. -/
theorem details_fallback_counterexample :
    (detailsFull ⟨.noInfo, fun _ =>
        .http200 [⟨some "video", "dQw4w9WgXcQ", none, none, []⟩]⟩ 0 "test").result = none
    ∧ (detailsFull ⟨.noInfo, fun _ =>
        .http200 [⟨some "video", "dQw4w9WgXcQ", none, none, []⟩]⟩ 0 "test").invCalled = false
    ∧ (detailsFull ⟨.noInfo, fun _ =>
        .http200 [⟨some "video", "dQw4w9WgXcQ", none, none, []⟩]⟩ 0 "test").err
        = "No results found."
    ∧ (getFromInvidious (fun _ =>
        .http200 [⟨some "video", "dQw4w9WgXcQ", none, none, []⟩]) 0).result
        = some (trackOfInvVideo ⟨some "video", "dQw4w9WgXcQ", none, none, []⟩) :=
  ⟨rfl, rfl, rfl, rfl⟩

/-- **C1 (amended).** `details` falls back to `_get_from_invidious` in
exactly two failing primary paths: when extraction yields an entry with a
falsy video id, and when an `ExtractorError` carries the bot-verification
message; in both, `details` returns the mirror result with an empty error
string whenever the mirror succeeds.  The remaining failing paths (falsy
info, empty or malformed search entries, other extractor errors, other
exceptions) return an error without consulting the mirror. -/
theorem details_fallback_policy (o : DetOracle) (i : Nat) (q : String) :
    ((detailsFull o i q).invCalled = true ↔
      ((∃ info e, o.ytdlp = .ok info ∧ resolvedEntry info = some e
          ∧ pyTruthy e.id = false)
        ∨ (∃ msg, o.ytdlp = .extractorError msg
            ∧ containsSubstr msg botBlockNeedle = true)))
    ∧ (∀ t, (getFromInvidious o.inv i).result = some t →
        (detailsFull o i q).invCalled = true →
        (detailsFull o i q).result = some t ∧ (detailsFull o i q).err = "") := by
  obtain ⟨y, inv⟩ := o
  cases y with
  | preError msg => simp [detailsFull]
  | noInfo => simp [detailsFull]
  | otherError msg => simp [detailsFull]
  | extractorError msg =>
    by_cases hb : containsSubstr msg botBlockNeedle
    · constructor
      · simp only [detailsFull, hb, if_true]
        cases hr : (getFromInvidious inv i).result <;> simp [hb]
      · intro t ht _
        simp [detailsFull, hb, ht]
    · simp [detailsFull, hb]
  | ok info =>
    obtain ⟨entries, entry⟩ := info
    cases entries with
    | none =>
      by_cases hid : pyTruthy entry.id
      · simp [detailsFull, detailsFinish, hid, resolvedEntry]
      · constructor
        · simp only [detailsFull, detailsFinish, hid]
          cases hr : (getFromInvidious inv i).result <;>
            simp [resolvedEntry, hid, hr]
        · intro t ht _
          simp [detailsFull, detailsFinish, hid, ht]
    | some e =>
      cases e with
      | notList => simp [detailsFull, resolvedEntry]
      | ofList l =>
        cases l with
        | nil => simp [detailsFull, resolvedEntry]
        | cons e0 rest =>
          by_cases hid : pyTruthy e0.id
          · simp [detailsFull, detailsFinish, hid, resolvedEntry]
          · constructor
            · simp only [detailsFull, detailsFinish, hid]
              cases hr : (getFromInvidious inv i).result <;>
                simp [resolvedEntry, hid, hr]
            · intro t ht _
              simp [detailsFull, detailsFinish, hid, ht]

/-- Witness for **C1 (amended)**: a bot-block `ExtractorError` with a
successful mirror answer makes `details` return the mirror track. -/
theorem details_fallback_policy_witness :
    (detailsFull ⟨.extractorError botBlockNeedle, fun _ =>
        .http200 [⟨some "video", "dQw4w9WgXcQ", none, none, []⟩]⟩ 0 "q").result
      = some (trackOfInvVideo ⟨some "video", "dQw4w9WgXcQ", none, none, []⟩)
    ∧ (detailsFull ⟨.extractorError botBlockNeedle, fun _ =>
        .http200 [⟨some "video", "dQw4w9WgXcQ", none, none, []⟩]⟩ 0 "q").err = "" :=
  (details_fallback_policy ⟨.extractorError botBlockNeedle, fun _ =>
      .http200 [⟨some "video", "dQw4w9WgXcQ", none, none, []⟩]⟩ 0 "q").2
    (trackOfInvVideo ⟨some "video", "dQw4w9WgXcQ", none, none, []⟩) (by rfl) (by rfl)

/-- Every track built from an Invidious search result has its `url` equal
to the canonical watch URL of its `id`. -/
theorem procResp_url (r : InvResp) (t : Track) (h : (procResp r).1 = some t) :
    t.url = base_url ++ t.id := by
  cases r with
  | http200 body =>
    simp only [procResp, Option.map_eq_some'] at h
    obtain ⟨v, -, hv⟩ := h
    rw [← hv]
    rfl
  | http200other => simp [procResp] at h
  | http429 => simp [procResp] at h
  | httpOther => simp [procResp] at h
  | netError => simp [procResp] at h
  | otherExc => simp [procResp] at h

/-- The invariant of `procResp_url` carried through the retry loop. -/
theorem invGo_url (resps : Nat → InvResp) :
    ∀ n a i t, (invGo resps n a i).result = some t → t.url = base_url ++ t.id := by
  intro n
  induction n with
  | zero => intro a i t h; simp [invGo] at h
  | succ m ih =>
    intro a i t h
    rcases hres : procResp (resps a) with ⟨r, s⟩
    simp only [invGo, hres, getNextInstance] at h
    cases r with
    | some t2 =>
      simp only [Option.some.injEq] at h
      rw [← h]
      exact procResp_url (resps a) t2 (by rw [hres])
    | none => exact ih (a + 1) _ t h

/-- **C5.** Whenever `details` succeeds it returns a metadata record with
the video id, title, duration and thumbnail fields populated, the watch
URL built canonically from the id (`base_url ++ id`), and an empty error
string — both for records from the primary backend and for records from
the mirror fallback. -/
theorem details_success_fields (o : DetOracle) (i : Nat) (q : String) (t : Track)
    (h : (detailsFull o i q).result = some t) :
    (detailsFull o i q).err = "" ∧ t.url = base_url ++ t.id := by
  obtain ⟨y, inv⟩ := o
  have hinv : ∀ t2, (getFromInvidious inv i).result = some t2 →
      t2.url = base_url ++ t2.id := fun t2 ht2 =>
    invGo_url inv maxAttempts 0 i t2 ht2
  cases y with
  | preError msg => simp [detailsFull] at h
  | noInfo => simp [detailsFull] at h
  | otherError msg => simp [detailsFull] at h
  | extractorError msg =>
    by_cases hb : containsSubstr msg botBlockNeedle
    · simp only [detailsFull, hb, if_true] at h ⊢
      cases hr : (getFromInvidious inv i).result with
      | none => rw [hr] at h; simp at h
      | some t2 =>
        rw [hr] at h
        simp only [Option.some.injEq] at h
        subst h
        exact ⟨rfl, hinv t2 hr⟩
    · simp [detailsFull, hb] at h
  | ok info =>
    obtain ⟨entries, entry⟩ := info
    have hfinish : ∀ e, (detailsFinish ⟨.ok ⟨entries, entry⟩, inv⟩ i e).result = some t →
        (detailsFinish ⟨.ok ⟨entries, entry⟩, inv⟩ i e).err = ""
        ∧ t.url = base_url ++ t.id := by
      intro e he
      by_cases hid : pyTruthy e.id
      · simp only [detailsFinish, hid, if_true, Option.some.injEq] at he
        refine ⟨by simp [detailsFinish, hid], ?_⟩
        rw [← he]
      · rw [Bool.not_eq_true] at hid
        simp only [detailsFinish, hid, Bool.false_eq_true, if_false] at he ⊢
        cases hr : (getFromInvidious inv i).result with
        | none => rw [hr] at he; simp at he
        | some t2 =>
          rw [hr] at he
          simp only [Option.some.injEq] at he
          subst he
          exact ⟨rfl, hinv t2 hr⟩
    cases entries with
    | none => exact hfinish entry h
    | some e =>
      cases e with
      | notList => simp [detailsFull] at h
      | ofList l =>
        cases l with
        | nil => simp [detailsFull] at h
        | cons e0 rest => exact hfinish e0 h

/-- Witness for **C5**: a primary-backend success. -/
theorem details_success_fields_witness :
    (detailsFull ⟨.ok ⟨none, ⟨some "abcdefghijk", some "T", some 60, none⟩⟩,
        fun _ => .netError⟩ 0 "q").err = ""
    ∧ Track.url
        ⟨"abcdefghijk", "T", 60,
          "https://i.ytimg.com/vi/abcdefghijk/maxresdefault.jpg",
          base_url ++ "abcdefghijk"⟩
      = base_url ++ Track.id
        ⟨"abcdefghijk", "T", 60,
          "https://i.ytimg.com/vi/abcdefghijk/maxresdefault.jpg",
          base_url ++ "abcdefghijk"⟩ :=
  details_success_fields ⟨.ok ⟨none, ⟨some "abcdefghijk", some "T", some 60, none⟩⟩,
      fun _ => .netError⟩ 0 "q"
    ⟨"abcdefghijk", "T", 60,
      "https://i.ytimg.com/vi/abcdefghijk/maxresdefault.jpg",
      base_url ++ "abcdefghijk"⟩ (by rfl)

/-- The Invidious fallback inside `details` keeps the success/error pairing. -/
theorem detailsFinish_contract (o : DetOracle) (i : Nat) (e : YtEntry) :
    (detailsFinish o i e).result.isSome = true ↔ (detailsFinish o i e).err = "" := by
  by_cases hid : pyTruthy e.id
  · simp [detailsFinish, hid]
  · rw [Bool.not_eq_true] at hid
    simp only [detailsFinish, hid, Bool.false_eq_true, if_false]
    cases hr : (getFromInvidious o.inv i).result <;> simp [hr]

/-- **C9.** Implicit error contract of the resolver interface: `details`,
`video` and `download` are total (every caught exception becomes a return
value) and each returns either a non-`None` result with an empty error
string or `None` with a non-empty error message; `exists` returns exactly
whether `details` produced a non-`None` result. -/
theorem resolver_error_contract (o : DetOracle) (i : Nat) (q : String)
    (vo : VideoOutcome) (dl : DlOutcome) (pe rok ao : Bool) :
    ((details o i q).1.isSome = true ↔ (details o i q).2 = "")
    ∧ ((video vo).1.isSome = true ↔ (video vo).2 = "")
    ∧ ((download dl pe rok ao).1.isSome = true ↔ (download dl pe rok ao).2 = "")
    ∧ existsQuery o i q = (details o i q).1.isSome := by
  refine ⟨?_, ?_, ?_, rfl⟩
  · show (detailsFull o i q).result.isSome = true ↔ (detailsFull o i q).err = ""
    obtain ⟨y, inv⟩ := o
    cases y with
    | preError msg =>
      simp [detailsFull]
      exact fun hc => append_ne_empty_left "Failed to process query: " msg (by decide) hc
    | noInfo => simp [detailsFull]
    | otherError msg =>
      simp [detailsFull]
      exact fun hc => append_ne_empty_left "Error: " msg (by decide) hc
    | extractorError msg =>
      by_cases hb : containsSubstr msg botBlockNeedle
      · simp only [detailsFull, hb, if_true]
        cases hr : (getFromInvidious inv i).result <;> simp [hr]
      · rw [Bool.not_eq_true] at hb
        simp only [detailsFull, hb, Bool.false_eq_true, if_false]
        simp
        exact fun hc => append_ne_empty_left "Extraction failed: " msg (by decide) hc
    | ok info =>
      obtain ⟨entries, entry⟩ := info
      cases entries with
      | none => exact detailsFinish_contract ⟨.ok ⟨none, entry⟩, inv⟩ i entry
      | some e =>
        cases e with
        | notList => simp [detailsFull]
        | ofList l =>
          cases l with
          | nil => simp [detailsFull]
          | cons e0 rest =>
            exact detailsFinish_contract ⟨.ok ⟨some (.ofList (e0 :: rest)), entry⟩, inv⟩ i e0
  · cases vo with
    | noInfo => simp [video]
    | dlError msg =>
      simp [video]
      exact fun hc => append_ne_empty_left "Download failed: " msg (by decide) hc
    | otherError msg =>
      simp [video]
      exact fun hc =>
        append_ne_empty_left "Error getting stream URL: " msg (by decide) hc
    | ok info =>
      by_cases hu : pyTruthy info.url
      · have : info.url.isSome = true := by
          cases hv : info.url with
          | none => rw [hv] at hu; simp [pyTruthy] at hu
          | some s => rfl
        simp [video, hu, this]
      · rw [Bool.not_eq_true] at hu
        simp only [video, hu, Bool.false_eq_true, if_false]
        cases hf : (info.formats.filterMap fun f =>
            if pyTruthy f.url then f.url else none).head? <;> simp [hf]
  · cases dl with
    | preError msg =>
      simp [download]
      exact fun hc => append_ne_empty_left "Error during download: " msg (by decide) hc
    | dlError msg =>
      simp [download]
      exact fun hc => append_ne_empty_left "Download failed: " msg (by decide) hc
    | ok path =>
      simp only [download]
      by_cases h1 : (ao && !pyEndsWith path ".mp3") = true
      · simp only [h1, if_true]
        by_cases h2 : (pe && !rok) = true <;> simp [h2]
      · rw [Bool.not_eq_true] at h1
        simp [h1]

/-- Appending `".mp3"` yields a string ending in `".mp3"`. -/
theorem pyEndsWith_append_mp3 (s : String) :
    pyEndsWith (s ++ ".mp3") ".mp3" = true := by
  simp [pyEndsWith, String.data_append, List.isSuffixOf]

/-- **C7 (counterexample).** With `audio_only=True`, when the downloaded
file exists but `os.rename` raises `OSError`, the assignment
`path = new_path` is skipped and `download` succeeds (empty error) with
the original non-`.mp3` path, contradicting the claim that every
successful audio download returns a path ending in `.mp3`. -/
theorem download_mp3_counterexample :
    download (.ok "downloads/abc_1.webm") true false true
      = (some "downloads/abc_1.webm", "")
    ∧ pyEndsWith "downloads/abc_1.webm" ".mp3" = false :=
  ⟨rfl, rfl⟩

/-- **C7 (amended).** `download` with `audio_only=True` configures the
`FFmpegExtractAudio`/mp3 post-processor and, on success, returns a path
ending in `.mp3` (renaming the file when its extension differs) —
*except* when the file exists and the rename itself fails with an
`OSError`, in which case the original path is returned unchanged;
`audio_only=False` selects the `height<=720` video format, adds no audio
post-processor, and returns the prepared path as is. -/
theorem download_modes (pe rok : Bool) (path : String) :
    (getYdlOpts true).postprocessors
      = [{ key := "FFmpegExtractAudio", preferredcodec := "mp3"
         , preferredquality := "192" }]
    ∧ (getYdlOpts true).format = "bestaudio/best"
    ∧ (getYdlOpts false).postprocessors = []
    ∧ (getYdlOpts false).format = "bestvideo[height<=720]+bestaudio/best[height<=720]"
    ∧ ((rok = true ∨ pe = false ∨ pyEndsWith path ".mp3" = true) →
        ∃ q, download (.ok path) pe rok true = (some q, "")
          ∧ pyEndsWith q ".mp3" = true)
    ∧ (pe = true → rok = false → pyEndsWith path ".mp3" = false →
        download (.ok path) pe rok true = (some path, ""))
    ∧ (∀ q, download (.ok path) pe rok false = (some q, "") → q = path) := by
  refine ⟨rfl, rfl, rfl, rfl, ?_, ?_, ?_⟩
  · intro hok
    by_cases hmp : pyEndsWith path ".mp3" = true
    · exact ⟨path, by simp [download, hmp], hmp⟩
    · rw [Bool.not_eq_true] at hmp
      refine ⟨splitextBase path ++ ".mp3", ?_, pyEndsWith_append_mp3 _⟩
      rcases hok with hok | hok | hok
      · simp [download, hmp, hok]
      · simp [download, hmp, hok]
      · rw [hok] at hmp; cases hmp
  · intro hpe hrok hmp
    simp [download, hmp, hpe, hrok]
  · intro q hq
    simp only [download, Bool.false_and, Bool.false_eq_true, if_false,
      Prod.mk.injEq, Option.some.injEq] at hq
    exact hq.1.symm

/-- Witness for **C7 (amended)**: a successful rename yields an `.mp3`
path. -/
theorem download_modes_witness :
    ∃ q, download (.ok "downloads/v_1.webm") true true true = (some q, "")
      ∧ pyEndsWith q ".mp3" = true :=
  (download_modes true true "downloads/v_1.webm").2.2.2.2.1 (Or.inl rfl)

/-- **C8.** URL extraction from a chat message is sound and complete with
respect to the YouTube URL pattern: `url` returns a string only if it
fully matches the pattern and comes from a URL or text-link entity of the
message or of its replied-to message, and it returns `None` exactly when
no entity of either message carries a fully matching URL.  (`url` is a
total function of the message — the model of the enclosing
`try/except` — so it never raises.) -/
theorem url_extraction_sound_complete (m : PyMessage) :
    (∀ s, urlMethod m = some s → urlRegexFullmatch s = true
      ∧ (s ∈ msgCandidates m.toSubMessage
          ∨ ∃ r, m.replyToMessage = some r ∧ s ∈ msgCandidates r))
    ∧ (urlMethod m = none ↔
        ((∀ c ∈ msgCandidates m.toSubMessage, urlRegexFullmatch c = false)
          ∧ ∀ r, m.replyToMessage = some r →
              ∀ c ∈ msgCandidates r, urlRegexFullmatch c = false)) := by
  cases hmain : urlOfMsg m.toSubMessage with
  | some u =>
    have hp : urlRegexFullmatch u = true := List.find?_some hmain
    have hm : u ∈ msgCandidates m.toSubMessage := List.mem_of_find?_eq_some hmain
    constructor
    · intro s hs
      simp only [urlMethod, hmain, Option.some.injEq] at hs
      subst hs
      exact ⟨hp, Or.inl hm⟩
    · constructor
      · intro hn
        simp [urlMethod, hmain] at hn
      · rintro ⟨h1, -⟩
        rw [h1 u hm] at hp
        cases hp
  | none =>
    have h1 : ∀ c ∈ msgCandidates m.toSubMessage, urlRegexFullmatch c = false := by
      intro c hc
      have := List.find?_eq_none.mp hmain c hc
      simpa using this
    cases hrep : m.replyToMessage with
    | none =>
      constructor
      · intro s hs
        simp [urlMethod, hmain, hrep] at hs
      · constructor
        · intro _
          refine ⟨h1, ?_⟩
          intro r hr
          cases hr
        · intro _
          simp [urlMethod, hmain, hrep]
    | some r =>
      cases hrm : urlOfMsg r with
      | some u =>
        have hp : urlRegexFullmatch u = true := List.find?_some hrm
        have hm : u ∈ msgCandidates r := List.mem_of_find?_eq_some hrm
        constructor
        · intro s hs
          simp only [urlMethod, hmain, hrep, hrm, Option.some.injEq] at hs
          subst hs
          exact ⟨hp, Or.inr ⟨r, rfl, hm⟩⟩
        · constructor
          · intro hn
            simp [urlMethod, hmain, hrep, hrm] at hn
          · rintro ⟨-, h2⟩
            rw [h2 r rfl u hm] at hp
            cases hp
      | none =>
        have h2 : ∀ c ∈ msgCandidates r, urlRegexFullmatch c = false := by
          intro c hc
          have := List.find?_eq_none.mp hrm c hc
          simpa using this
        constructor
        · intro s hs
          simp [urlMethod, hmain, hrep, hrm] at hs
        · constructor
          · intro _
            refine ⟨h1, ?_⟩
            intro r2 hr2
            injection hr2 with h3
            subst h3
            exact h2
          · intro _
            simp [urlMethod, hmain, hrep, hrm]

/-- Witness for **C8**: a message whose single URL entity covers a
well-formed short YouTube link. -/
theorem url_extraction_sound_complete_witness :
    urlRegexFullmatch "https://youtu.be/dQw4w9WgXcQ" = true
    ∧ ("https://youtu.be/dQw4w9WgXcQ" ∈ msgCandidates
        (PyMessage.mk ⟨some "https://youtu.be/dQw4w9WgXcQ", none,
          [⟨.url, 0, 28⟩], []⟩ none).toSubMessage
      ∨ ∃ r, (PyMessage.mk ⟨some "https://youtu.be/dQw4w9WgXcQ", none,
          [⟨.url, 0, 28⟩], []⟩ none).replyToMessage = some r
          ∧ "https://youtu.be/dQw4w9WgXcQ" ∈ msgCandidates r) :=
  (url_extraction_sound_complete
      (PyMessage.mk ⟨some "https://youtu.be/dQw4w9WgXcQ", none,
        [⟨.url, 0, 28⟩], []⟩ none)).1
    "https://youtu.be/dQw4w9WgXcQ" (by rfl)

/-- A cache hit returns the cached path at once, with no effects. -/
theorem genThumbCore_cache_hit (que : Bool) (o : ThumbOracle) (vid uid : String)
    (h : o.fs ("cache/" ++ (if que then "que" else "") ++ sanitize_filename vid
      ++ "_" ++ sanitize_filename uid ++ ".png") = true) :
    genThumbCore que o vid uid =
      (some ("cache/" ++ (if que then "que" else "") ++ sanitize_filename vid
        ++ "_" ++ sanitize_filename uid ++ ".png"), []) := by
  simp only [genThumbCore, h, if_true]

/-- The only `save` effect a run can perform targets the canonical cache
path, and a run that saves returns exactly that path. -/
theorem genThumbCore_save (que : Bool) (o : ThumbOracle) (vid uid : String)
    (p : Option String) (effs : List Effect) (pth : String)
    (hrun : genThumbCore que o vid uid = (p, effs))
    (hmem : Effect.save pth ∈ effs) :
    pth = "cache/" ++ (if que then "que" else "") ++ sanitize_filename vid
        ++ "_" ++ sanitize_filename uid ++ ".png"
    ∧ p = some pth := by
  simp only [genThumbCore] at hrun
  set cp := "cache/" ++ (if que then "que" else "") ++ sanitize_filename vid
    ++ "_" ++ sanitize_filename uid ++ ".png" with hcp
  set tp := "cache/thumb" ++ sanitize_filename vid ++ ".png" with htp
  set up := (if o.profileOk = true then
    "cache/" ++ sanitize_filename uid ++ "_photo.jpg" else FAILED) with hup
  repeat' split at hrun
  all_goals obtain ⟨hp, he⟩ := Prod.mk.inj hrun
  all_goals subst he
  all_goals simp at hmem
  all_goals subst hmem
  all_goals exact ⟨rfl, hp.symm⟩

/-- **C6.** Thumbnail composition is cached and idempotent per
`(videoid, user_id)`: when the cache file for the sanitized pair already
exists, `gen_thumb` (resp. `gen_qthumb`) returns that cached path at once
with no fetching or compositing effects; and whenever a run saves a
composited PNG, the save target is exactly the cache path determined by
the sanitized `videoid` and `user_id`, which is also the returned path. -/
theorem thumb_cache_idempotent (o : ThumbOracle) (vid uid : String) :
    (o.fs ("cache/" ++ sanitize_filename vid ++ "_" ++ sanitize_filename uid
        ++ ".png") = true →
      gen_thumb o vid uid = (some ("cache/" ++ sanitize_filename vid ++ "_"
        ++ sanitize_filename uid ++ ".png"), []))
    ∧ (o.fs ("cache/que" ++ sanitize_filename vid ++ "_" ++ sanitize_filename uid
        ++ ".png") = true →
      gen_qthumb o vid uid = (some ("cache/que" ++ sanitize_filename vid ++ "_"
        ++ sanitize_filename uid ++ ".png"), []))
    ∧ (∀ p effs pth, gen_thumb o vid uid = (p, effs) → Effect.save pth ∈ effs →
        pth = "cache/" ++ sanitize_filename vid ++ "_" ++ sanitize_filename uid
          ++ ".png" ∧ p = some pth)
    ∧ (∀ p effs pth, gen_qthumb o vid uid = (p, effs) → Effect.save pth ∈ effs →
        pth = "cache/que" ++ sanitize_filename vid ++ "_" ++ sanitize_filename uid
          ++ ".png" ∧ p = some pth) := by
  refine ⟨?_, ?_, ?_, ?_⟩
  · intro h
    exact genThumbCore_cache_hit false o vid uid h
  · intro h
    exact genThumbCore_cache_hit true o vid uid h
  · intro p effs pth hrun hmem
    exact genThumbCore_save false o vid uid p effs pth hrun hmem
  · intro p effs pth hrun hmem
    exact genThumbCore_save true o vid uid p effs pth hrun hmem

/-- Witness for **C6**: a filesystem on which the plain cache file for
`("abc", "1")` exists. -/
theorem thumb_cache_idempotent_witness :
    gen_thumb ⟨fun s => s == "cache/abc_1.png", true, none, true, true, true⟩
      "abc" "1" = (some ("cache/" ++ sanitize_filename "abc" ++ "_"
        ++ sanitize_filename "1" ++ ".png"), []) :=
  (thumb_cache_idempotent
      ⟨fun s => s == "cache/abc_1.png", true, none, true, true, true⟩
      "abc" "1").1 (by rfl)

/-- **C10.** `extract_user` returns the author of the replied-to message
when the message is a reply; otherwise it raises `ValueError` when the
message has no entities, no `command` attribute, or fewer than two command
tokens; otherwise it resolves a `TEXT_MENTION` entity by its numeric user
id, and resolves the second command token only when it is a decimal user
id or a username accepted by `is_valid_username`, raising `ValueError` in
every other case; and `is_valid_username` accepts exactly the strings of
length 5 to 32 that start with an ASCII letter and contain only ASCII
letters, digits and underscores thereafter. -/
theorem extract_user_validation (m : ExMessage) :
    (∀ r, m.reply_to_message = some r →
        extract_user m = .ok (.replyAuthor r.from_user))
    ∧ (m.reply_to_message = none →
        (m.entities = [] ∨ m.command = none ∨ (m.command.getD []).length < 2) →
        extract_user m = .error "No user argument found.")
    ∧ (m.reply_to_message = none → m.entities ≠ [] →
        ∀ cmd, m.command = some cmd → 2 ≤ cmd.length →
        ((∀ u, chosenEntity m = .textMention u →
            extract_user m = .ok (.fetchById u.id))
          ∧ (chosenEntity m = .otherEntity →
              ((pyIsDecimal (cmd.getD 1 "") = true →
                  extract_user m = .ok (.fetchById ((cmd.getD 1 "").toNat?.getD 0 : Int)))
                ∧ (pyIsDecimal (cmd.getD 1 "") = false →
                    is_valid_username (cmd.getD 1 "") = true →
                    extract_user m = .ok (.fetchByName (cmd.getD 1 "")))
                ∧ (pyIsDecimal (cmd.getD 1 "") = false →
                    is_valid_username (cmd.getD 1 "") = false →
                    extract_user m = .error
                      "Invalid user identifier: must be a user ID or a valid username.")))))
    ∧ (∀ s, is_valid_username s = true ↔
        (5 ≤ s.length ∧ s.length ≤ 32 ∧
          ∃ c cs, s.data = c :: cs ∧ c.isAlpha = true
            ∧ ∀ d ∈ cs, (d.isAlphanum || d = '_') = true)) := by
  refine ⟨?_, ?_, ?_, ?_⟩
  · intro r hr
    simp [extract_user, hr]
  · intro hr hbad
    simp [extract_user, hr, hbad]
  · intro hr hne cmd hcmd hlen
    have hcond : ¬(m.entities = [] ∨ m.command = none
        ∨ (m.command.getD []).length < 2) := by
      push_neg
      refine ⟨hne, ?_, ?_⟩ <;> simp [hcmd] <;> omega
    constructor
    · intro u hu
      simp [extract_user, hr, hcond, hu]
    · intro hoth
      refine ⟨?_, ?_, ?_⟩
      · intro hdec
        simp only [extract_user, hr]
        rw [if_neg hcond, hoth]
        simp only [hcmd, Option.getD_some, hdec, if_true]
      · intro hdec hvalid
        simp only [extract_user, hr]
        rw [if_neg hcond, hoth]
        simp only [hcmd, Option.getD_some, hdec, hvalid, Bool.false_eq_true,
          if_false, if_true]
      · intro hdec hvalid
        simp only [extract_user, hr]
        rw [if_neg hcond, hoth]
        simp only [hcmd, Option.getD_some, hdec, hvalid, Bool.false_eq_true,
          if_false]
  · intro s
    have hlen : s.length = s.data.length := rfl
    constructor
    · intro hv
      unfold is_valid_username at hv
      cases hd : s.data with
      | nil =>
        rw [show s.toList = s.data from rfl, hd] at hv
        cases hv
      | cons c cs =>
        rw [show s.toList = s.data from rfl, hd] at hv
        simp only [Bool.and_eq_true, decide_eq_true_eq, List.all_eq_true] at hv
        obtain ⟨⟨⟨hc, hall⟩, h4⟩, h31⟩ := hv
        rw [hlen, hd]
        refine ⟨by simp; omega, by simp; omega, c, cs, rfl, hc, ?_⟩
        intro d hdm
        simpa using hall d hdm
    · rintro ⟨h5, h32, c, cs, hd, hc, hall⟩
      unfold is_valid_username
      rw [show s.toList = s.data from rfl, hd]
      rw [hlen, hd] at h5 h32
      simp only [List.length_cons] at h5 h32
      simp only [Bool.and_eq_true, decide_eq_true_eq, List.all_eq_true]
      refine ⟨⟨⟨hc, ?_⟩, by omega⟩, by omega⟩
      intro d hdm
      simpa using hall d hdm

/-- Witness for **C10**: a reply message resolves to the author of the
replied-to message; a non-reply with the username token `"validname"`
resolves by name. -/
theorem extract_user_validation_witness :
    extract_user ⟨some ⟨some ⟨42⟩⟩, "/cmd x", [.otherEntity], some ["/cmd", "x"]⟩
      = .ok (.replyAuthor (some ⟨42⟩))
    ∧ extract_user ⟨none, "/cmd validname", [.otherEntity, .otherEntity],
        some ["/cmd", "validname"]⟩
      = .ok (.fetchByName "validname") :=
  ⟨(extract_user_validation
      ⟨some ⟨some ⟨42⟩⟩, "/cmd x", [.otherEntity], some ["/cmd", "x"]⟩).1
      ⟨some ⟨42⟩⟩ rfl,
    (((extract_user_validation
        ⟨none, "/cmd validname", [.otherEntity, .otherEntity],
          some ["/cmd", "validname"]⟩).2.2.1 rfl (by simp)
        ["/cmd", "validname"] rfl (by decide)).2 (by rfl)).2.1 (by rfl) (by rfl)⟩

end Akshu
